import Mathlib

/-!
Verification of the certificate discovery, parsing and classification pipeline
of `roles/openshift_certificate_expiry/library/openshift_cert_expiry.py`.

The Python module is embedded shallowly:

* datetimes and timedeltas are modeled as `Int` (seconds since an arbitrary
  epoch, resp. seconds of duration); a timedelta's `.days` attribute is floor
  division of its total seconds by 86400 (`timedeltaDays`);
* the metadata dict built for each examined certificate becomes the structure
  `CertMeta`; the `expiry` entry holds a datetime before classification and its
  string rendering afterwards, captured by the sum type `Expiry`;
* the external library calls (base64 decoding, `OpenSSL.crypto.load_certificate`,
  `strptime`) are oracles outside this repository; a payload handed to
  `load_and_handle_cert` is therefore modeled by the outcome of those calls
  (`CertString`), while everything the repository's own code does with the
  outcome (subject assembly, SAN search loop, expiry arithmetic, error
  propagation) is translated faithfully;
* Python exceptions that the module does not catch are modeled by `Except`:
  an `Except.error` escaping a loop models the uncaught exception aborting it.
-/

namespace CertExpiry

/-- Value held by the `expiry` key of a certificate metadata dict: a datetime
(seconds since epoch) right after `load_and_handle_cert`, or its string
rendering after `classify_cert` has run (line 212 of the source). -/
inductive Expiry where
  | dt (t : Int)
  | str (s : String)
deriving DecidableEq, Repr

/-- Python's `str()` applied to a datetime, modeled as the decimal rendering of
the underlying timestamp (the exact text is irrelevant to every claim; only
that the datetime is replaced by a string rendering of it). -/
def strDatetime (t : Int) : String := toString t

/-- Python's `str()` applied to whatever the `expiry` key holds
(line 200: `expiry_str = str(cert_meta['expiry'])`). -/
def strOfExpiry : Expiry → String
  | .dt t => strDatetime t
  | .str s => s

/-- The comparison `cert_meta['expiry'] < now` (line 202). Every call site of
`classify_cert` passes a datetime in the `expiry` slot, so only the `.dt`
branch is ever exercised by the program. -/
def Expiry.ltNow : Expiry → Int → Bool
  | .dt t, now => decide (t < now)
  | .str _, _ => false

/-- The `expire_check_result` dict built at each call site of `classify_cert`
(e.g. lines 378-384): keys `cert_cn`, `path`, `expiry`, `days_remaining`,
`health` (initially `None`, i.e. `none`). -/
structure CertMeta where
  cert_cn : String
  path : String
  expiry : Expiry
  days_remaining : Int
  health : Option String
deriving DecidableEq, Repr

/-- `.days` of a Python timedelta holding `seconds` total seconds: floor
division by the number of seconds per day (Python's `//` floors). -/
def timedeltaDays (seconds : Int) : Int := Int.fdiv seconds 86400

/-- The health string chosen by the `if/elif/else` of `classify_cert`
(lines 202-210): `expired` when the expiry datetime is before `now`, else
`warning` when `time_remaining < expire_window`, else `ok`. -/
def healthOf (expiry : Expiry) (now time_remaining expire_window : Int) : String :=
  if expiry.ltNow now then "expired"
  else if time_remaining < expire_window then "warning"
  else "ok"

/-- `classify_cert` (lines 184-214): renders the expiry to a string, writes the
`health` key according to `healthOf`, overwrites `expiry` with the rendered
string, appends the record to `cert_list` and returns that list. -/
def classify_cert (cert_meta : CertMeta) (now time_remaining expire_window : Int)
    (cert_list : List CertMeta) : List CertMeta :=
  cert_list ++
    [{ cert_meta with
        health := some (healthOf cert_meta.expiry now time_remaining expire_window)
        expiry := .str (strOfExpiry cert_meta.expiry) }]

/-- One X.509 extension as pyOpenSSL exposes it: its `get_short_name()` and
the text `str(ext)` renders (for `subjectAltName` the entries separated by
a comma and a space, as the comment at lines 163-166 records). -/
structure X509Ext where
  shortName : String
  rendered : String
deriving DecidableEq, Repr

/-- The data `OpenSSL.crypto.load_certificate` exposes from a successfully
parsed PEM payload: the subject's `get_components()` pairs, the extension list
(`get_extension(i)` answers index `i`, `IndexError` past the end), and the
result of `strptime` on `get_notAfter()` (`none` when the timestamp is
malformed and `strptime` raises). -/
structure ParsedCert where
  subjectComponents : List (String × String)
  extensions : List X509Ext
  notAfter : Option Int
deriving DecidableEq, Repr

/-- A certificate payload string, modeled by the outcome of the external
decoding steps the module applies to it: whether `.decode('base-64')`
succeeds, and what `load_certificate` yields (`none` when it raises). -/
structure CertString where
  base64Ok : Bool
  pemParse : Option ParsedCert
deriving DecidableEq, Repr

/-- The uncaught Python exceptions that can escape `load_and_handle_cert`:
base64 decoding error, `OpenSSL.crypto.Error` from `load_certificate`, and
`ValueError` from `strptime` on a malformed expiry timestamp. -/
inductive DecodeError where
  | badBase64
  | badPEM
  | badTimestamp
deriving DecidableEq, Repr

/-- The `while not checked_all_extensions` loop of lines 142-160: request
extensions by increasing index until one whose short name is `subjectAltName`
is found (returned) or `IndexError` ends the scan (`none`). -/
def findSubjectAltName : List X509Ext → Option X509Ext
  | [] => none
  | ext :: rest =>
    if ext.shortName == "subjectAltName" then some ext else findSubjectAltName rest

/-- `load_and_handle_cert` (lines 103-181): optional base64 decode, PEM parse,
subject components rendered `name:value` joined by a comma-space, SAN entries
appended when the extension is present, expiry parse, and
`time_remaining = cert_expiry_date - now`. An `Except.error` models the
uncaught exception the corresponding library call raises. -/
def load_and_handle_cert (cert_string : CertString) (now : Int) (base64decode : Bool) :
    Except DecodeError (String × Int × Int) :=
  if base64decode && !cert_string.base64Ok then .error .badBase64
  else
    match cert_string.pemParse with
    | none => .error .badPEM
    | some cert_loaded =>
      let cert_subjects :=
        cert_loaded.subjectComponents.map fun nv => nv.1 ++ ":" ++ nv.2
      let cert_subjects :=
        match findSubjectAltName cert_loaded.extensions with
        | some san => cert_subjects ++ san.rendered.splitOn ", "
        | none => cert_subjects
      match cert_loaded.notAfter with
      | none => .error .badTimestamp
      | some cert_expiry_date =>
        .ok (String.intercalate ", " cert_subjects, cert_expiry_date,
          cert_expiry_date - now)

/-- The `expire_check_result` dict as built at every call site (for instance
lines 378-384): `days_remaining` is `.days` of the returned timedelta, `health`
starts as `None`. -/
def expire_check_result (cert_subject path : String) (cert_expiry_date time_remaining : Int) :
    CertMeta :=
  { cert_cn := cert_subject
    path := path
    expiry := .dt cert_expiry_date
    days_remaining := timedeltaDays time_remaining
    health := none }

/-- The `summary_results` dict of `tabulate_summary` (lines 236-246). -/
structure SummaryResults where
  system_certificates : Nat
  kubeconfig_certificates : Nat
  etcd_certificates : Nat
  router_certs : Nat
  registry_certs : Nat
  total : Nat
  ok : Nat
  warning : Nat
  expired : Nat
deriving DecidableEq, Repr

/-- `tabulate_summary` (lines 217-252): concatenates the five group lists and
counts the records carrying each health string (the zero initializers of the
dict literal are immediately overwritten at lines 248-250). -/
def tabulate_summary (certificates kubeconfigs etcd_certs router_certs registry_certs :
    List CertMeta) : SummaryResults :=
  let items := certificates ++ kubeconfigs ++ etcd_certs ++ router_certs ++ registry_certs
  { system_certificates := certificates.length
    kubeconfig_certificates := kubeconfigs.length
    etcd_certificates := etcd_certs.length
    router_certs := router_certs.length
    registry_certs := registry_certs.length
    total := items.length
    ok := (items.filter fun c => c.health == some "ok").length
    warning := (items.filter fun c => c.health == some "warning").length
    expired := (items.filter fun c => c.health == some "expired").length }

/-- The `check_results` entries holding the per-group output lists
(lines 642-666). -/
structure CheckResults where
  ocp_certs : List CertMeta
  kubeconfigs : List CertMeta
  etcd : List CertMeta
  registry : List CertMeta
  router : List CertMeta
deriving DecidableEq, Repr

/-- The list comprehension applied to each group when `show_all` is false
(lines 643-647): keep only records whose health is `expired` or `warning`. -/
def health_filter (l : List CertMeta) : List CertMeta :=
  l.filter fun crt => crt.health == some "expired" || crt.health == some "warning"

/-- `cert_key` (lines 660-662): the sort key, the record's `days_remaining`. -/
def cert_key (item : CertMeta) : Int := item.days_remaining

/-- Python's `sorted(l, key=cert_key)`: a stable ascending sort by the key,
modeled by `List.mergeSort` (which is stable) on the key's order. -/
def sorted_by_cert_key (l : List CertMeta) : List CertMeta :=
  l.mergeSort fun a b => decide (cert_key a ≤ cert_key b)

/-- Lines 642-666 of `main`: filter each of the five groups when `show_all` is
false, then sort the `ocp_certs`, `kubeconfigs` and `etcd` groups by
`cert_key`; the `router` and `registry` groups are returned without sorting. -/
def report_results (show_all : Bool)
    (ocp_certs kubeconfigs etcd_certs router_certs registry_certs : List CertMeta) :
    CheckResults :=
  let cr : CheckResults :=
    if !show_all then
      { ocp_certs := health_filter ocp_certs
        kubeconfigs := health_filter kubeconfigs
        etcd := health_filter etcd_certs
        registry := health_filter registry_certs
        router := health_filter router_certs }
    else
      { ocp_certs := ocp_certs
        kubeconfigs := kubeconfigs
        etcd := etcd_certs
        registry := registry_certs
        router := router_certs }
  { cr with
      ocp_certs := sorted_by_cert_key cr.ocp_certs
      kubeconfigs := sorted_by_cert_key cr.kubeconfigs
      etcd := sorted_by_cert_key cr.etcd }

/-- The tail of `main` relevant to reporting: the summary is tabulated from the
five unfiltered accumulator lists (line 629) and the `check_results` groups are
filtered/sorted from the same lists (lines 642-666). -/
def main_report (show_all : Bool)
    (ocp_certs kubeconfigs etcd_certs router_certs registry_certs : List CertMeta) :
    SummaryResults × CheckResults :=
  (tabulate_summary ocp_certs kubeconfigs etcd_certs router_certs registry_certs,
   report_results show_all ocp_certs kubeconfigs etcd_certs router_certs registry_certs)

/-- `FakeSecHead` (lines 73-92): wraps a file object, serving the synthetic
section header first. `sechead` is `'[ETCD]\n'` right after `__init__` and
`None` once it has been served. `fp` is the wrapped stream, modeled as its
remaining lines. -/
structure FakeSecHead where
  sechead : Option String
  fp : List String
deriving DecidableEq, Repr

/-- `FakeSecHead.__init__` (lines 80-82). -/
def FakeSecHead.init (fp : List String) : FakeSecHead :=
  { sechead := some "[ETCD]\n", fp := fp }

/-- `readline` of the wrapped Python file object: the next line, or the empty
string once the stream is exhausted. -/
def file_readline : List String → String × List String
  | [] => ("", [])
  | l :: ls => (l, ls)

/-- `FakeSecHead.readline` (lines 84-92): serve `sechead` once (clearing it),
afterwards delegate every call to the wrapped stream. -/
def FakeSecHead.readline : FakeSecHead → String × FakeSecHead
  | { sechead := some h, fp := fp } => (h, { sechead := none, fp := fp })
  | { sechead := none, fp := fp } =>
    ((file_readline fp).1, { sechead := none, fp := (file_readline fp).2 })

/-- `n` successive `readline` calls on a `FakeSecHead` (what the config parser
performs while consuming the adapted stream). -/
def read_lines : FakeSecHead → Nat → List String
  | _, 0 => []
  | st, n + 1 => (st.readline).1 :: read_lines (st.readline).2 n

/-- `n` successive `readline` calls on the bare wrapped stream. -/
def file_read_lines : List String → Nat → List String
  | _, 0 => []
  | fp, n + 1 => (file_readline fp).1 :: file_read_lines (file_readline fp).2 n

/-- `ConfigParser`'s `optionxform`, Python's `str.lower()`, applied to option
names both when a `KEY=VALUE` line is stored and when `get` looks a key up. -/
def pyLower (s : String) : String := ⟨s.data.map Char.toLower⟩

/-- `ConfigParser.get('ETCD', param)` on the parsed single-section file: option
names are matched case-insensitively through `pyLower`, and a missing option
raises `NoOptionError`, modeled by `none`. `options` lists the `KEY=VALUE`
lines of the parsed section with their raw keys. -/
def configparser_get (options : List (String × String)) (param : String) : Option String :=
  (options.find? fun kv => pyLower kv.1 == pyLower param).map fun kv => kv.2

/-- The fixed key list of lines 318-323. -/
def etcd_cert_params : List String :=
  ["ETCD_CA_FILE", "ETCD_CERT_FILE", "ETCD_PEER_CA_FILE", "ETCD_PEER_CERT_FILE"]

/-- Line 478: `etcd_cert_params.append('dne')` executed before the probe loop,
so the list actually probed carries a fifth key `dne`. -/
def etcd_probe_params : List String := etcd_cert_params ++ ["dne"]

/-- One iteration of the probe loop (lines 488-493): look the key up, add the
resolved value to the `etcd_certs_to_check` set, and on `NoOptionError` skip
just that key (`pass`). The Python `set` is modeled as a list without
duplicate insertions. -/
def etcd_probe_step (options : List (String × String)) (s : List String) (param : String) :
    List String :=
  match configparser_get options param with
  | some v => if s.contains v then s else s ++ [v]
  | none => s

/-- The full probe loop of lines 488-493 over the appended key list, starting
from the empty `etcd_certs_to_check` set (line 476). -/
def etcd_certs_to_check (options : List (String × String)) : List String :=
  etcd_probe_params.foldl (etcd_probe_step options) []

/-- A locator loop over the certificate sources it resolved, as written at
lines 373-386 (and likewise at 498-513): read each source, run
`load_and_handle_cert` on it with no per-certificate exception guard, build
the `expire_check_result` dict and classify it into the accumulator.
A decode failure is an uncaught exception, so it escapes the whole loop as
`Except.error` and every remaining source is dropped with it. -/
def examine_cert_sources (sources : List (String × CertString)) (now expire_window : Int)
    (acc : List CertMeta) : Except DecodeError (List CertMeta) :=
  match sources with
  | [] => .ok acc
  | (path, cs) :: rest =>
    match load_and_handle_cert cs now false with
    | .error e => .error e
    | .ok (cert_subject, cert_expiry_date, time_remaining) =>
      examine_cert_sources rest now expire_window
        (classify_cert (expire_check_result cert_subject path cert_expiry_date time_remaining)
          now time_remaining expire_window acc)

/-- A sample payload on which `OpenSSL.crypto.load_certificate` raises
(malformed PEM). -/
def badPayload : CertString := { base64Ok := true, pemParse := none }

/-- A sample payload that decodes cleanly: one subject component, no
extensions, expiry 10 days after epoch. -/
def goodPayload : CertString :=
  { base64Ok := true
    pemParse := some { subjectComponents := [("CN", "good")], extensions := [],
                       notAfter := some 864000 } }

/-! ### Helper lemmas -/

/-- In a sorted decomposition around a pivot `a`, the prefix is recovered by
filtering the recombined list for the elements strictly below `a`. -/
theorem filter_not_le_of_sorted_decomp {α : Type _} {le : α → α → Bool} {a : α}
    {l₁ l₂ : List α}
    (h₁ : ∀ b ∈ l₁, le a b = false) (h₂ : ∀ b ∈ l₂, le a b = true) :
    (l₁ ++ l₂).filter (fun b => !(le a b)) = l₁ := by
  rw [List.filter_append]
  rw [List.filter_eq_self.mpr (by intro b hb; simp [h₁ b hb])]
  rw [List.filter_eq_nil_iff.mpr (by intro b hb; simp [h₂ b hb])]
  simp

/-- A stable sort commutes with filtering: sorting the filtered list gives the
filtered sorted list. -/
theorem mergeSort_filter_comm {α : Type _} (le : α → α → Bool) (p : α → Bool)
    (htrans : ∀ (a b c : α), le a b → le b c → le a c)
    (htotal : ∀ (a b : α), le a b || le b a) :
    ∀ l : List α, (l.filter p).mergeSort le = (l.mergeSort le).filter p := by
  intro l
  induction l with
  | nil => simp
  | cons a l ih =>
    obtain ⟨m₁, m₂, hm, hm', hm₁⟩ := List.mergeSort_cons htrans htotal a l
    by_cases hpa : p a = true
    · obtain ⟨l₁, l₂, hl, hl', hl₁⟩ := List.mergeSort_cons htrans htotal a (l.filter p)
      have hsl : ((a :: l.filter p).mergeSort le).Pairwise (fun x y => le x y) :=
        List.sorted_mergeSort htrans htotal _
      rw [hl, List.pairwise_append] at hsl
      have hl₂ : ∀ b ∈ l₂, le a b = true := fun b hb =>
        (List.pairwise_cons.mp hsl.2.1).1 b hb
      have hsm : ((a :: l).mergeSort le).Pairwise (fun x y => le x y) :=
        List.sorted_mergeSort htrans htotal _
      rw [hm, List.pairwise_append] at hsm
      have hm₂ : ∀ b ∈ m₂, le a b = true := fun b hb =>
        (List.pairwise_cons.mp hsm.2.1).1 b hb
      have hl₁f : l₁ = ((l.filter p).mergeSort le).filter (fun b => !(le a b)) := by
        rw [hl', filter_not_le_of_sorted_decomp (fun b hb => by simpa using hl₁ b hb) hl₂]
      have hm₁f : m₁ = (l.mergeSort le).filter (fun b => !(le a b)) := by
        rw [hm', filter_not_le_of_sorted_decomp (fun b hb => by simpa using hm₁ b hb) hm₂]
      have hkey : l₁ = m₁.filter p := by
        rw [hl₁f, ih, hm₁f, List.filter_comm]
      have hrest : l₂ = m₂.filter p := by
        have hsplit := hl'
        rw [ih, hm', List.filter_append, ← hkey] at hsplit
        exact (List.append_cancel_left hsplit).symm
      rw [List.filter_cons_of_pos hpa, hl, hm, List.filter_append,
        List.filter_cons_of_pos hpa, hkey, hrest]
    · rw [List.filter_cons_of_neg (by simpa using hpa), ih, hm, hm',
        List.filter_append, List.filter_append,
        List.filter_cons_of_neg (by simpa using hpa)]

/-- The sort key order used by `sorted_by_cert_key` is transitive. -/
theorem cert_le_trans (a b c : CertMeta) :
    decide (cert_key a ≤ cert_key b) → decide (cert_key b ≤ cert_key c) →
    decide (cert_key a ≤ cert_key c) := by
  simp only [decide_eq_true_eq]
  omega

/-- The sort key order used by `sorted_by_cert_key` is total. -/
theorem cert_le_total (a b : CertMeta) :
    decide (cert_key a ≤ cert_key b) || decide (cert_key b ≤ cert_key a) := by
  simp only [Bool.or_eq_true, decide_eq_true_eq]
  omega

/-- The output of `sorted_by_cert_key` is ascending in `days_remaining`. -/
theorem sorted_by_cert_key_pairwise (l : List CertMeta) :
    (sorted_by_cert_key l).Pairwise (fun a b => a.days_remaining ≤ b.days_remaining) := by
  have h := List.sorted_mergeSort cert_le_trans cert_le_total l
  exact h.imp (by simp [cert_key])

/-- Sorting an already emitted group again changes nothing. -/
theorem sorted_by_cert_key_idem (l : List CertMeta) :
    sorted_by_cert_key (sorted_by_cert_key l) = sorted_by_cert_key l :=
  List.mergeSort_of_sorted (List.sorted_mergeSort cert_le_trans cert_le_total l)

/-- `sorted_by_cert_key` commutes with any filter (stability of the sort). -/
theorem sorted_by_cert_key_filter (p : CertMeta → Bool) (l : List CertMeta) :
    sorted_by_cert_key (l.filter p) = (sorted_by_cert_key l).filter p :=
  mergeSort_filter_comm _ p cert_le_trans cert_le_total l

/-- Records sharing one `days_remaining` value keep their input order through
`sorted_by_cert_key`. -/
theorem sorted_by_cert_key_stable (l : List CertMeta) (d : Int) :
    (sorted_by_cert_key l).filter (fun c => c.days_remaining == d)
      = l.filter (fun c => c.days_remaining == d) := by
  rw [← sorted_by_cert_key_filter]
  refine List.mergeSort_of_sorted (List.pairwise_of_forall_mem_list ?_)
  intro a ha b hb
  have ha' := (List.mem_filter.mp ha).2
  have hb' := (List.mem_filter.mp hb).2
  simp only [beq_iff_eq] at ha' hb'
  simp [cert_key, ha', hb']

/-- A list whose members each carry one of the three health strings is counted
exactly once by the three health filters together. -/
theorem three_way_health_count (l : List CertMeta)
    (h : ∀ c ∈ l, c.health = some "ok" ∨ c.health = some "warning" ∨
      c.health = some "expired") :
    (l.filter fun c => c.health == some "ok").length
      + (l.filter fun c => c.health == some "warning").length
      + (l.filter fun c => c.health == some "expired").length = l.length := by
  induction l with
  | nil => simp
  | cons c l ih =>
    have hc := h c (List.mem_cons_self c l)
    have hrec := ih fun x hx => h x (List.mem_cons_of_mem c hx)
    rcases hc with hc | hc | hc <;> simp [List.filter_cons, hc] <;> omega

/-- Once the section header has been served, the adapter replays exactly the
wrapped stream. -/
theorem read_lines_delegates (fp : List String) (n : Nat) :
    read_lines { sechead := none, fp := fp } n = file_read_lines fp n := by
  induction n generalizing fp with
  | zero => rfl
  | succ n ih => simp [read_lines, file_read_lines, FakeSecHead.readline, ih]

/-- The extension scan loop is the first-match search for `subjectAltName`. -/
theorem findSubjectAltName_eq_find (exts : List X509Ext) :
    findSubjectAltName exts = exts.find? fun ext => ext.shortName == "subjectAltName" := by
  induction exts with
  | nil => rfl
  | cons e rest ih =>
    by_cases he : e.shortName == "subjectAltName" <;>
      simp [findSubjectAltName, List.find?, he, ih]

/-- When no extension is named `subjectAltName` the scan ends with `none`. -/
theorem findSubjectAltName_eq_none (exts : List X509Ext)
    (h : ∀ ext ∈ exts, ext.shortName ≠ "subjectAltName") :
    findSubjectAltName exts = none := by
  induction exts with
  | nil => rfl
  | cons e rest ih =>
    have he := h e (List.mem_cons_self e rest)
    simp only [findSubjectAltName, beq_iff_eq, if_neg he]
    exact ih fun x hx => h x (List.mem_cons_of_mem e hx)

/-- Characterization of a successful `load_and_handle_cert`: the success path
returns the assembled subject string, the parsed expiry, and the difference
`expiry - now`. -/
theorem load_and_handle_cert_ok {cs : CertString} {now : Int} {b64 : Bool}
    {cn : String} {t tr : Int}
    (hok : load_and_handle_cert cs now b64 = .ok (cn, t, tr)) :
    ∃ cert, cs.pemParse = some cert ∧ cert.notAfter = some t ∧ tr = t - now := by
  rcases cs with ⟨b64ok, pem⟩
  by_cases hb : (b64 && !b64ok) = true
  · simp [load_and_handle_cert, hb] at hok
  · rcases pem with _ | cert
    · simp [load_and_handle_cert, hb] at hok
    · rcases hna : cert.notAfter with _ | t' <;>
        rcases hsan : findSubjectAltName cert.extensions with _ | san <;>
        simp only [load_and_handle_cert, hb, hna, hsan, Bool.false_eq_true, if_false,
          Except.ok.injEq, Prod.mk.injEq] at hok
      all_goals first
        | exact ⟨cert, rfl, by rw [hna, hok.2.1], by rw [← hok.2.1, ← hok.2.2]⟩
        | exact absurd hok (by simp)

/-! ### Claim theorems -/

/-- Claim C1: `classify_cert` assigns exactly one of the three health states to
the record it appends, checking in order: expiry before `now` gives `expired`;
otherwise `time_remaining < expire_window` gives `warning`; otherwise `ok`.
At the boundary `time_remaining = expire_window` the health is `ok`, and an
expired certificate is classified `expired` even when it also satisfies the
warning predicate. The hypotheses record the calling convention of the module:
the `expiry` slot holds the datetime `t`, `time_remaining` is `t - now` as
returned by `load_and_handle_cert` (line 179), and the warning window is the
non-negative `timedelta(days=warning_days)` of line 329. -/
theorem classify_cert_three_state_classification
    (m : CertMeta) (now t time_remaining expire_window : Int) (l : List CertMeta)
    (hexp : m.expiry = .dt t) (htr : time_remaining = t - now)
    (hw : 0 ≤ expire_window) :
    let h := ((classify_cert m now time_remaining expire_window l).getLastD m).health
    (h = some "expired" ∨ h = some "warning" ∨ h = some "ok") ∧
    (t < now → h = some "expired") ∧
    (now ≤ t → time_remaining < expire_window → h = some "warning") ∧
    (now ≤ t → expire_window ≤ time_remaining → h = some "ok") ∧
    (time_remaining = expire_window → h = some "ok") ∧
    (t < now → time_remaining < expire_window → h = some "expired") := by
  have hlast : (classify_cert m now time_remaining expire_window l).getLastD m
      = { m with
            health := some (healthOf m.expiry now time_remaining expire_window)
            expiry := .str (strOfExpiry m.expiry) } := by
    simp [classify_cert, List.getLastD_concat]
  intro h
  simp only [h, hlast]
  subst htr
  by_cases hlt : t < now <;> by_cases hwarn : t - now < expire_window <;>
    simp [healthOf, hexp, Expiry.ltNow, hlt, hwarn] <;> omega

/-- Witness for C1 at a concrete input: expiry 10 days from `now = 0`, warning
window 30 days, so the certificate lands in `warning`. -/
theorem classify_cert_three_state_classification_witness :
    ((classify_cert
        { cert_cn := "CN:x", path := "/p", expiry := .dt 864000,
          days_remaining := 10, health := none }
        0 864000 2592000 []).getLastD
        { cert_cn := "CN:x", path := "/p", expiry := .dt 864000,
          days_remaining := 10, health := none }).health = some "warning" := by
  have h := classify_cert_three_state_classification
    { cert_cn := "CN:x", path := "/p", expiry := .dt 864000,
      days_remaining := 10, health := none }
    0 864000 864000 2592000 [] rfl (by decide) (by decide)
  exact h.2.2.1 (by decide) (by decide)

/-- Claim C10: `classify_cert` only rewrites the `health` field (to one of the
three health strings) and the `expiry` field (to the string rendering of the
datetime it held), leaves `cert_cn`, `path` and `days_remaining` unchanged,
and appends exactly that one record to the end of the list it was given,
returning that list with every previously present element unchanged and in
its original order. -/
theorem classify_cert_frame
    (m : CertMeta) (now t time_remaining expire_window : Int) (l : List CertMeta)
    (hexp : m.expiry = .dt t) :
    ∃ m_new : CertMeta,
      classify_cert m now time_remaining expire_window l = l ++ [m_new] ∧
      m_new.cert_cn = m.cert_cn ∧
      m_new.path = m.path ∧
      m_new.days_remaining = m.days_remaining ∧
      m_new.expiry = .str (strDatetime t) ∧
      (m_new.health = some "expired" ∨ m_new.health = some "warning" ∨
        m_new.health = some "ok") := by
  refine ⟨_, rfl, rfl, rfl, rfl, by simp [strOfExpiry, hexp], ?_⟩
  simp only [healthOf]
  split
  · exact Or.inl rfl
  · split
    · exact Or.inr (Or.inl rfl)
    · exact Or.inr (Or.inr rfl)

/-- Witness for C10 at a concrete record. -/
theorem classify_cert_frame_witness :
    ∃ m_new : CertMeta,
      classify_cert
        { cert_cn := "CN:x", path := "/p", expiry := .dt (-432000),
          days_remaining := -5, health := none }
        0 (-432000) 2592000 [] = [] ++ [m_new] ∧
      m_new.cert_cn = "CN:x" ∧ m_new.path = "/p" ∧ m_new.days_remaining = -5 ∧
      m_new.expiry = .str (strDatetime (-432000)) ∧
      (m_new.health = some "expired" ∨ m_new.health = some "warning" ∨
        m_new.health = some "ok") :=
  classify_cert_frame
    { cert_cn := "CN:x", path := "/p", expiry := .dt (-432000),
      days_remaining := -5, health := none }
    0 (-432000) (-432000) 2592000 [] rfl

/-- Claim C2: for every successfully decoded certificate the `days_remaining`
recorded at the call sites is the whole-day difference between expiry and
`now`, i.e. the floor division of the total seconds of `expiry - now` by
86400 (a timedelta's `.days`), not rounded, and may be negative: an expiry
exactly 5 days before `now` yields -5 and one exactly 10 days after yields
10. -/
theorem days_remaining_floor_division
    (cs : CertString) (now : Int) (b64 : Bool) (cn : String) (t tr : Int) (path : String)
    (hok : load_and_handle_cert cs now b64 = .ok (cn, t, tr)) :
    tr = t - now ∧
    (expire_check_result cn path t tr).days_remaining = Int.fdiv (t - now) 86400 ∧
    (t - now = -432000 → (expire_check_result cn path t tr).days_remaining = -5) ∧
    (t - now = 864000 → (expire_check_result cn path t tr).days_remaining = 10) := by
  obtain ⟨cert, -, -, htr⟩ := load_and_handle_cert_ok hok
  refine ⟨htr, ?_, ?_, ?_⟩
  · simp [expire_check_result, timedeltaDays, htr]
  · intro h5
    simp [expire_check_result, timedeltaDays, htr, h5]
  · intro h10
    simp [expire_check_result, timedeltaDays, htr, h10]

/-- Witness for C2: a certificate expiring exactly 5 days before `now`
yields `days_remaining = -5`. -/
theorem days_remaining_floor_division_witness :
    (-432000 : Int) = -432000 - 0 ∧
    (expire_check_result "CN:x" "/p" (-432000) (-432000)).days_remaining
      = Int.fdiv (-432000 - 0) 86400 ∧
    ((-432000 : Int) - 0 = -432000 →
      (expire_check_result "CN:x" "/p" (-432000) (-432000)).days_remaining = -5) ∧
    ((-432000 : Int) - 0 = 864000 →
      (expire_check_result "CN:x" "/p" (-432000) (-432000)).days_remaining = 10) :=
  days_remaining_floor_division
    ⟨true, some ⟨[("CN", "x")], [], some (-432000)⟩⟩ 0 false "CN:x" (-432000) (-432000)
    "/p" rfl

/-- Claim C3: the summary is computed over the unfiltered union of the five
source groups; whenever every record in that union carries one of the three
health values (as every record produced by `classify_cert` does),
`ok + warning + expired = total`, and `total` is the sum of the five
per-group sizes. -/
theorem tabulate_summary_counts_invariant
    (certificates kubeconfigs etcd_certs router_certs registry_certs : List CertMeta)
    (h : ∀ c ∈ certificates ++ kubeconfigs ++ etcd_certs ++ router_certs ++ registry_certs,
      c.health = some "ok" ∨ c.health = some "warning" ∨ c.health = some "expired") :
    let s := tabulate_summary certificates kubeconfigs etcd_certs router_certs registry_certs
    s.ok + s.warning + s.expired = s.total ∧
    s.total = s.system_certificates + s.kubeconfig_certificates + s.etcd_certificates
      + s.router_certs + s.registry_certs := by
  intro s
  constructor
  · exact three_way_health_count _ h
  · simp [s, tabulate_summary]
    omega

/-- Witness for C3: one record of each health plus an expired router record. -/
theorem tabulate_summary_counts_invariant_witness :
    let s := tabulate_summary
      [{ cert_cn := "a", path := "/a", expiry := .str "e", days_remaining := 400,
         health := some "ok" }]
      [{ cert_cn := "b", path := "/b", expiry := .str "e", days_remaining := 10,
         health := some "warning" }]
      []
      [{ cert_cn := "c", path := "/c", expiry := .str "e", days_remaining := -5,
         health := some "expired" }]
      []
    s.ok + s.warning + s.expired = s.total ∧
    s.total = s.system_certificates + s.kubeconfig_certificates + s.etcd_certificates
      + s.router_certs + s.registry_certs :=
  tabulate_summary_counts_invariant
    [{ cert_cn := "a", path := "/a", expiry := .str "e", days_remaining := 400,
       health := some "ok" }]
    [{ cert_cn := "b", path := "/b", expiry := .str "e", days_remaining := 10,
       health := some "warning" }]
    []
    [{ cert_cn := "c", path := "/c", expiry := .str "e", days_remaining := -5,
       health := some "expired" }]
    []
    (by decide)

/-- Claim C4: for every source group, the output produced with `show_all`
false is exactly the sublist of the `show_all` true output consisting of the
records whose health is `expired` or `warning` (the `health_filter` of the
`show_all` true output, which is a sublist of it); `ok` records are dropped
from the output but the summary is computed from the unfiltered lists, so it
is the same in both modes. -/
theorem show_all_false_filters_groups
    (ocp_certs kubeconfigs etcd_certs router_certs registry_certs : List CertMeta) :
    let rf := report_results false ocp_certs kubeconfigs etcd_certs router_certs registry_certs
    let rt := report_results true ocp_certs kubeconfigs etcd_certs router_certs registry_certs
    rf.ocp_certs = health_filter rt.ocp_certs ∧
    rf.kubeconfigs = health_filter rt.kubeconfigs ∧
    rf.etcd = health_filter rt.etcd ∧
    rf.registry = health_filter rt.registry ∧
    rf.router = health_filter rt.router ∧
    (∀ g : List CertMeta, (health_filter g).Sublist g) ∧
    (main_report false ocp_certs kubeconfigs etcd_certs router_certs registry_certs).1
      = (main_report true ocp_certs kubeconfigs etcd_certs router_certs registry_certs).1 := by
  refine ⟨?_, ?_, ?_, rfl, rfl, fun g => List.filter_sublist g, rfl⟩ <;>
    simp [report_results, health_filter, sorted_by_cert_key_filter]

/-- Claim C5: in the returned result the `ocp_certs` (system certs),
`kubeconfigs` and `etcd` groups are each sorted ascending by
`days_remaining`; the sort is stable (records sharing a `days_remaining`
value keep their input order) and idempotent (sorting a group that is
already sorted, in particular any returned group, changes nothing); the
`router` and `registry` groups are returned unsorted, exactly as filtered. -/
theorem report_groups_sorted_stable_idempotent
    (show_all : Bool)
    (ocp_certs kubeconfigs etcd_certs router_certs registry_certs : List CertMeta) :
    let r := report_results show_all ocp_certs kubeconfigs etcd_certs router_certs
      registry_certs
    r.ocp_certs.Pairwise (fun a b => a.days_remaining ≤ b.days_remaining) ∧
    r.kubeconfigs.Pairwise (fun a b => a.days_remaining ≤ b.days_remaining) ∧
    r.etcd.Pairwise (fun a b => a.days_remaining ≤ b.days_remaining) ∧
    sorted_by_cert_key r.ocp_certs = r.ocp_certs ∧
    sorted_by_cert_key r.kubeconfigs = r.kubeconfigs ∧
    sorted_by_cert_key r.etcd = r.etcd ∧
    (∀ l : List CertMeta, sorted_by_cert_key (sorted_by_cert_key l) = sorted_by_cert_key l) ∧
    (∀ (l : List CertMeta) (d : Int),
      (sorted_by_cert_key l).filter (fun c => c.days_remaining == d)
        = l.filter (fun c => c.days_remaining == d)) ∧
    r.router = (if show_all then router_certs else health_filter router_certs) ∧
    r.registry = (if show_all then registry_certs else health_filter registry_certs) := by
  cases show_all <;>
    exact ⟨sorted_by_cert_key_pairwise _, sorted_by_cert_key_pairwise _,
      sorted_by_cert_key_pairwise _, sorted_by_cert_key_idem _, sorted_by_cert_key_idem _,
      sorted_by_cert_key_idem _, sorted_by_cert_key_idem, sorted_by_cert_key_stable,
      rfl, rfl⟩

/-- Claim C6 (counterexample): with a locator that resolved a malformed
certificate followed by a well-formed one, the examination loop of
lines 373-386 does not recover at the granularity of the bad certificate:
the decode failure escapes the loop as an uncaught exception, and no record
list is produced at all — the well-formed source contributes nothing. -/
theorem decode_failure_not_recovered_counterexample :
    examine_cert_sources [("/etc/origin/master/ca.crt", badPayload),
      ("/etc/origin/master/master.server.crt", goodPayload)] 0 2592000 []
      = .error .badPEM ∧
    ∀ recs : List CertMeta,
      examine_cert_sources [("/etc/origin/master/ca.crt", badPayload),
        ("/etc/origin/master/master.server.crt", goodPayload)] 0 2592000 [] ≠ .ok recs :=
  ⟨rfl, fun _ h => Except.noConfusion h⟩

/-- Claim C6 (amended): a certificate payload that fails to decode is not
recovered per certificate: the decode error propagates out of the enclosing
locator loop, which then aborts with that error and yields no record list,
no matter how many other sources would have decoded cleanly. -/
theorem decode_failure_aborts_locator
    (sources : List (String × CertString)) (now expire_window : Int)
    (acc : List CertMeta) :
    (∃ src ∈ sources, ∃ e, load_and_handle_cert src.2 now false = .error e) →
    ∃ e, examine_cert_sources sources now expire_window acc = .error e := by
  induction sources generalizing acc with
  | nil => intro h; simp at h
  | cons s rest ih =>
    intro h
    obtain ⟨src, hmem, e, he⟩ := h
    rcases s with ⟨p, cs⟩
    rcases hload : load_and_handle_cert cs now false with e' | v
    · exact ⟨e', by simp [examine_cert_sources, hload]⟩
    · rcases List.mem_cons.mp hmem with heq | hmem'
      · rw [heq] at he
        rw [hload] at he
        exact Except.noConfusion he
      · rcases v with ⟨cn, t, tr⟩
        simp only [examine_cert_sources, hload]
        exact ih _ ⟨src, hmem', e, he⟩

/-- Witness for the amended C6 at a concrete input. -/
theorem decode_failure_aborts_locator_witness :
    ∃ e, examine_cert_sources [("/etc/origin/master/ca.crt", badPayload)] 0 2592000 []
      = .error e :=
  decode_failure_aborts_locator [("/etc/origin/master/ca.crt", badPayload)] 0 2592000 []
    ⟨("/etc/origin/master/ca.crt", badPayload), List.mem_cons_self _ _, .badPEM, rfl⟩

/-- Claim C7 (code bug at line 478): the external-etcd locator is meant to
probe exactly the four `ETCD_*` keys; but `etcd_cert_params.append('dne')`
makes the probed list carry a fifth key `dne`, so an etcd.conf carrying a
`dne`/`DNE` option (here `DNE=/tmp/sneaky.crt`, with all four `ETCD_*` keys
absent and therefore individually skipped) gets that path added to the set of
inspected certificate sources. -/
theorem etcd_probe_includes_dne_key :
    etcd_probe_params = etcd_cert_params ++ ["dne"] ∧
    etcd_probe_params ≠ etcd_cert_params ∧
    (∀ p ∈ etcd_cert_params, configparser_get [("DNE", "/tmp/sneaky.crt")] p = none) ∧
    etcd_certs_to_check [("DNE", "/tmp/sneaky.crt")] = ["/tmp/sneaky.crt"] :=
  ⟨rfl, by decide, by decide, by decide⟩

/-- Claim C8: for every successfully decoded certificate the identity string
is the comma-space-separated concatenation of the subject RDN components
rendered as `name:value` pairs, followed by the rendered `subjectAltName`
entries when that extension is present (the index-until-IndexError scan is a
first-match search); with zero extensions, or none named `subjectAltName`,
the identity is the subject pairs alone and the decode still succeeds —
absence of the extension is not an error. -/
theorem cert_subject_identity
    (cs : CertString) (cert : ParsedCert) (now t : Int) (b64 : Bool)
    (hpem : cs.pemParse = some cert) (hna : cert.notAfter = some t)
    (hb : (b64 && !cs.base64Ok) = false) :
    load_and_handle_cert cs now b64 =
      .ok (String.intercalate ", "
        ((cert.subjectComponents.map fun nv => nv.1 ++ ":" ++ nv.2) ++
          (match findSubjectAltName cert.extensions with
            | some san => san.rendered.splitOn ", "
            | none => [])), t, t - now) ∧
    findSubjectAltName cert.extensions
      = cert.extensions.find? (fun ext => ext.shortName == "subjectAltName") ∧
    ((∀ ext ∈ cert.extensions, ext.shortName ≠ "subjectAltName") →
      load_and_handle_cert cs now b64 =
        .ok (String.intercalate ", "
          (cert.subjectComponents.map fun nv => nv.1 ++ ":" ++ nv.2), t, t - now)) ∧
    (cert.extensions = [] →
      load_and_handle_cert cs now b64 =
        .ok (String.intercalate ", "
          (cert.subjectComponents.map fun nv => nv.1 ++ ":" ++ nv.2), t, t - now)) := by
  refine ⟨?_, findSubjectAltName_eq_find _, ?_, ?_⟩
  · rcases hsan : findSubjectAltName cert.extensions with _ | san <;>
      simp [load_and_handle_cert, hb, hpem, hna, hsan]
  · intro hnone
    simp [load_and_handle_cert, hb, hpem, hna, findSubjectAltName_eq_none _ hnone]
  · intro hext
    simp [load_and_handle_cert, hb, hpem, hna, hext, findSubjectAltName]

/-- Witness for C8: a certificate with two subject components and no
extensions at all decodes to the subject pairs alone. -/
theorem cert_subject_identity_witness :
    load_and_handle_cert
      ⟨true, some ⟨[("CN", "master"), ("O", "cluster")], [], some 864000⟩⟩ 0 false
      = .ok ("CN:master, O:cluster", 864000, 864000 - 0) := by
  have h := (cert_subject_identity
    ⟨true, some ⟨[("CN", "master"), ("O", "cluster")], [], some 864000⟩⟩
    ⟨[("CN", "master"), ("O", "cluster")], [], some 864000⟩
    0 864000 false rfl rfl rfl).2.2.2 rfl
  exact h.trans rfl

/-- Claim C9: the relaxed parser wrapper serves the synthetic `[ETCD]` header
line exactly once, as the very first line read, and thereafter delegates
every `readline` to the wrapped stream unchanged; a key absent from the
parsed section is reported per key (`NoOptionError`, modeled as `none`) and
the probe loop skips exactly that key instead of failing the whole parse. -/
theorem fakesechead_header_once_then_delegates
    (ls fp : List String) (n : Nat)
    (options : List (String × String)) (s : List String) (param : String)
    (habsent : configparser_get options param = none) :
    read_lines (FakeSecHead.init ls) (n + 1) = "[ETCD]\n" :: file_read_lines ls n ∧
    FakeSecHead.readline ⟨none, fp⟩
      = ((file_readline fp).1, ⟨none, (file_readline fp).2⟩) ∧
    etcd_probe_step options s param = s := by
  refine ⟨?_, rfl, ?_⟩
  · simp [read_lines, FakeSecHead.init, FakeSecHead.readline, read_lines_delegates]
  · simp [etcd_probe_step, habsent]

/-- Witness for C9 at concrete inputs. -/
theorem fakesechead_header_once_then_delegates_witness :
    read_lines (FakeSecHead.init ["A=1\n", "B=2\n"]) 3
      = "[ETCD]\n" :: file_read_lines ["A=1\n", "B=2\n"] 2 ∧
    FakeSecHead.readline ⟨none, ["X=9\n"]⟩
      = ((file_readline ["X=9\n"]).1, ⟨none, (file_readline ["X=9\n"]).2⟩) ∧
    etcd_probe_step [("ETCD_CA_FILE", "/etc/etcd/ca.crt")] [] "ETCD_PEER_CA_FILE" = [] :=
  fakesechead_header_once_then_delegates ["A=1\n", "B=2\n"] ["X=9\n"] 2
    [("ETCD_CA_FILE", "/etc/etcd/ca.crt")] [] "ETCD_PEER_CA_FILE" (by decide)

end CertExpiry

